import Mathlib

set_option maxRecDepth 100000

/-!
Verification development for the delivery-percentage dashboard
(`delivery_dashboard.py` and `app.py`).

The pipeline is shallowly embedded: pandas tables become lists of records,
cell values become `String`s, numeric values become `ℚ` wrapped in `Option`
where pandas uses `NA`/`NaN` sentinels, and dates become `Int` day ordinals
(days since 1970-01-01).  Each definition is translated from the source file
noted in its doc comment.
-/

/-! ### String utilities

Python string methods used by the source are modelled on `List Char` so that
they evaluate by kernel reduction.  `strip`/`lower`/`replace` with single-char
patterns are faithfully reproduced.
-/

/-- Python `str.strip()` on the character list: drop leading and trailing
whitespace. -/
def trimChars (cs : List Char) : List Char :=
  ((cs.dropWhile Char.isWhitespace).reverse.dropWhile Char.isWhitespace).reverse

/-- Python `str.strip()` at `String` level. -/
def pyStrip (s : String) : String :=
  String.mk (trimChars s.toList)

/-- Python `str.lower()`: lowercase every character. -/
def pyLower (s : String) : String :=
  String.mk (s.toList.map Char.toLower)

/-- Python `str.replace(" ", "_")`: replace every space by an underscore. -/
def pyUnderscore (s : String) : String :=
  String.mk (s.toList.map (fun ch => if ch == ' ' then '_' else ch))

/-- Python `str.replace(",", "").replace("%", "")` from the numeric-cleaning
loop of `load_and_clean` (`delivery_dashboard.py` lines 90-96): remove every
comma and percent sign. -/
def stripNumeric (s : String) : String :=
  String.mk (s.toList.filter (fun ch => !(ch == ',' || ch == '%')))

/-- Python `", ".join(xs)` used in the `load_and_clean` error message. -/
def joinComma : List String → String
  | [] => ""
  | [s] => s
  | s :: rest => s ++ ", " ++ joinComma rest

/-! ### Column normalization (`delivery_dashboard.py` lines 51-72) -/

/-- Header normalization from line 51:
`c.strip().lower().replace(" ", "_")`. -/
def normalizeHeader (c : String) : String :=
  pyUnderscore (pyLower (pyStrip c))

/-- The static synonym table `COL_MAP` (lines 53-71). -/
def COL_MAP : List (String × String) :=
  [("symbol", "symbol"),
   ("date", "date"),
   ("qty_traded", "traded_qty"),
   ("total_traded_quantity", "traded_qty"),
   ("traded_qty", "traded_qty"),
   ("deliverable_qty", "deliverable_qty"),
   ("delivered_qty", "deliverable_qty"),
   ("delivery_percentage", "delivery_pct"),
   ("delivery_percent", "delivery_pct"),
   ("%_dly_qt_to_traded_qty", "delivery_pct"),
   ("delivery_pct", "delivery_pct"),
   ("open_price", "open"),
   ("open", "open"),
   ("closeprice", "close"),
   ("close_price", "close"),
   ("closing_price", "close"),
   ("close", "close")]

/-- `df.rename(columns=lambda c: COL_MAP.get(c, c))` applied after the
normalization of line 51: look the normalized header up in `COL_MAP`,
unknown headers pass through unchanged. -/
def renameHeader (c : String) : String :=
  let n := normalizeHeader c
  (COL_MAP.lookup n).getD n

/-- All headers of a file after normalization and renaming. -/
def renamedHeaders (hs : List String) : List String :=
  hs.map renameHeader

/-- The required canonical columns (line 74). -/
def REQUIRED : List String :=
  ["symbol", "date", "traded_qty", "deliverable_qty", "delivery_pct"]

/-- `missing = [c for c in REQUIRED if c not in df.columns]` (line 75). -/
def missingOf (hs : List String) : List String :=
  REQUIRED.filter (fun c => decide (c ∉ renamedHeaders hs))

/-! ### Cell parsing (`delivery_dashboard.py` lines 79-101) -/

/-- The sentinel replacement of line 79:
`df.replace(["-", "NA", "N/A", "na", ""], pd.NA)`. -/
def sentinelize (s : String) : Option String :=
  if s ∈ ["-", "NA", "N/A", "na", ""] then none else some s

/-- Parse a nonempty all-digit character list as a natural number. -/
def parseDigits (cs : List Char) : Option Nat :=
  if cs ≠ [] ∧ cs.all Char.isDigit then
    some (cs.foldl (fun n ch => 10 * n + (ch.toNat - 48)) 0)
  else none

/-- Decimal-number parsing as performed by `pd.to_numeric(..., errors="coerce")`
on plain decimal literals: optional sign, integer digits, optional fraction
digits; anything else coerces to null. -/
def parseDecimal (s : String) : Option ℚ :=
  let cs := trimChars s.toList
  let sgncs : ℚ × List Char :=
    match cs with
    | '-' :: r => (-1, r)
    | '+' :: r => (1, r)
    | r => (1, r)
  let ip := sgncs.2.takeWhile (fun ch => !(ch == '.'))
  let rest := sgncs.2.dropWhile (fun ch => !(ch == '.'))
  match rest with
  | [] => (parseDigits ip).map (fun n => sgncs.1 * (n : ℚ))
  | _ :: fp =>
    if (ip.all Char.isDigit ∧ fp ≠ [] ∧ fp.all Char.isDigit) ∨
       (ip ≠ [] ∧ ip.all Char.isDigit ∧ fp = []) then
      some (sgncs.1 *
        ((ip.foldl (fun n ch => 10 * n + (ch.toNat - 48)) 0 : Nat) +
         (fp.foldl (fun n ch => 10 * n + (ch.toNat - 48)) 0 : Nat) /
           ((10 : ℚ) ^ fp.length)))
    else none

/-- One numeric cell after sentinel replacement: strip commas and percent
signs, re-nullify empty strings, then coerce (lines 89-97). -/
def numericField (s : String) : Option ℚ :=
  (sentinelize s).bind (fun v =>
    let t := stripNumeric v
    if t = "" then none else parseDecimal t)

/-- `astype(int)` on a float value: truncate toward zero. -/
def ratTrunc (q : ℚ) : Int :=
  if 0 ≤ q then q.floor else q.ceil

/-! ### Dates

Dates are day ordinals (days since 1970-01-01).  The civil-calendar
conversions implement standard Gregorian arithmetic so that the period
bucketing of the source can be expressed on ordinals.
-/

/-- Convert a day ordinal to `(year, month, day)` (Gregorian). -/
def civilFromDays (z0 : Int) : Int × Int × Int :=
  let z := z0 + 719468
  let era := Int.ediv z 146097
  let doe := z - era * 146097
  let yoe := Int.ediv (doe - Int.ediv doe 1460 + Int.ediv doe 36524 - Int.ediv doe 146096) 365
  let y := yoe + era * 400
  let doy := doe - (365 * yoe + Int.ediv yoe 4 - Int.ediv yoe 100)
  let mp := Int.ediv (5 * doy + 2) 153
  let d := doy - Int.ediv (153 * mp + 2) 5 + 1
  let m := mp + (if mp < 10 then 3 else -9)
  (y + (if m ≤ 2 then 1 else 0), m, d)

/-- Convert `(year, month, day)` to a day ordinal (Gregorian). -/
def daysFromCivil (y0 m d : Int) : Int :=
  let y := y0 - (if m ≤ 2 then 1 else 0)
  let era := Int.ediv y 400
  let yoe := y - era * 400
  let doy := Int.ediv (153 * (m + (if 2 < m then -3 else 9)) + 2) 5 + d - 1
  let doe := yoe * 365 + Int.ediv yoe 4 - Int.ediv yoe 100 + doy
  era * 146097 + doe - 719468

/-- The tolerant date parse `pd.to_datetime(..., errors="coerce")` (line 80),
modelled on ISO `YYYY-MM-DD` inputs; values it cannot parse become null and
the row is dropped. -/
def parseDate (s : String) : Option Int :=
  match (trimChars s.toList).splitOn '-' with
  | [ys, ms, ds] =>
    (parseDigits ys).bind (fun y =>
      (parseDigits ms).bind (fun m =>
        (parseDigits ds).bind (fun d =>
          if 1 ≤ m ∧ m ≤ 12 ∧ 1 ≤ d ∧ d ≤ 31 then
            some (daysFromCivil (y : Int) (m : Int) (d : Int))
          else none)))
  | _ => none

/-! ### Rows and the cleaner (`delivery_dashboard.py` lines 49-108) -/

/-- A raw row keyed by the canonical columns after renaming; `open_` and
`close` cells are `none` when the file lacks those columns. -/
structure RawRow where
  symbol : String
  date : String
  traded_qty : String
  deliverable_qty : String
  delivery_pct : String
  open_ : Option String
  close : Option String
deriving DecidableEq, Repr

/-- A raw uploaded file: its header row and its data rows. -/
structure RawTable where
  headers : List String
  rows : List RawRow
deriving DecidableEq, Repr

/-- A cleaned row of the canonical table produced by `load_and_clean`. -/
structure CleanedRow where
  symbol : Option String
  date : Int
  traded_qty : Int
  deliverable_qty : Int
  delivery_pct : ℚ
  open_ : Option ℚ
  close : Option ℚ
  net_value : Option ℚ
deriving DecidableEq, Repr

/-- A cleaned table: its column names and its rows. -/
structure CleanedTable where
  columns : List String
  rows : List CleanedRow
deriving DecidableEq, Repr

/-- Whether the file has an `open` column after renaming (line 84). -/
def hasOpenCol (t : RawTable) : Bool :=
  decide ("open" ∈ renamedHeaders t.headers)

/-- Whether the file has a `close` column after renaming (line 86). -/
def hasCloseCol (t : RawTable) : Bool :=
  decide ("close" ∈ renamedHeaders t.headers)

/-- Clean a single row (lines 79-106): parse the date (dropping the row on
failure), parse the mandatory numeric cells (dropping the row if any is
null), truncate the quantities to integers, and attach
`net_value = deliverable_qty * open` whenever the `open` column exists. -/
def cleanRow (ho hc : Bool) (r : RawRow) : Option CleanedRow :=
  match (sentinelize r.date).bind parseDate, numericField r.traded_qty,
        numericField r.deliverable_qty, numericField r.delivery_pct with
  | some d, some t, some dv, some p =>
    let openV : Option ℚ := if ho then r.open_.bind numericField else none
    let closeV : Option ℚ := if hc then r.close.bind numericField else none
    some { symbol := sentinelize r.symbol
           date := d
           traded_qty := ratTrunc t
           deliverable_qty := ratTrunc dv
           delivery_pct := p
           open_ := openV
           close := closeV
           net_value := if ho then openV.map (fun o => (ratTrunc dv : ℚ) * o) else none }
  | _, _, _, _ => none

/-- All surviving rows of a file. -/
def cleanRows (t : RawTable) : List CleanedRow :=
  t.rows.filterMap (cleanRow (hasOpenCol t) (hasCloseCol t))

/-- The columns of the cleaned frame: the renamed input columns, with
`net_value` materialized by the unconditional assignment of line 104. -/
def cleanedColumns (hs : List String) : List String :=
  let cs := renamedHeaders hs
  if "net_value" ∈ cs then cs else cs ++ ["net_value"]

/-- `load_and_clean` (lines 49-108): fail with the error of line 77 when a
required column is missing after renaming, otherwise produce the cleaned
table. -/
def load_and_clean (t : RawTable) : Except String CleanedTable :=
  let missing := missingOf t.headers
  if missing = [] then
    Except.ok { columns := cleanedColumns t.headers, rows := cleanRows t }
  else
    Except.error ("Missing column(s): " ++ joinComma missing)

/-! ### Multi-file merge (`delivery_dashboard.py` lines 118-123) -/

/-- The deduplication key of `drop_duplicates(subset=["symbol", "date"])`. -/
def rowKey (r : CleanedRow) : Option String × Int :=
  (r.symbol, r.date)

/-- `drop_duplicates(subset=["symbol", "date"])`, keeping the first
occurrence of each key, implemented with an accumulator of seen keys. -/
def dedupFirstAux (seen : List (Option String × Int)) : List CleanedRow → List CleanedRow
  | [] => []
  | r :: rs =>
    if rowKey r ∈ seen then dedupFirstAux seen rs
    else r :: dedupFirstAux (rowKey r :: seen) rs

/-- `drop_duplicates(subset=["symbol", "date"])` on a concatenated frame. -/
def dedupFirst (l : List CleanedRow) : List CleanedRow :=
  dedupFirstAux [] l

/-- The `sort_values("date")` comparison. -/
def dateLE (a b : CleanedRow) : Prop :=
  a.date ≤ b.date

instance : DecidableRel dateLE := fun a b =>
  inferInstanceAs (Decidable (a.date ≤ b.date))

instance : IsTotal CleanedRow dateLE :=
  ⟨fun a b => Int.le_total a.date b.date⟩

instance : IsTrans CleanedRow dateLE :=
  ⟨fun _ _ _ hab hbc => Int.le_trans hab hbc⟩

/-- The merge block of lines 118-123 executed with one admissible sort:
concatenate the cleaned files in upload order, drop duplicate
`(symbol, date)` rows keeping the first, and arrange by date.  The source's
`sort_values("date")` leaves the sort kind at its pandas default, which is
not documented as stable, so the program guarantees only the contract
`mergeResult` below — some date-ordered permutation; `mergeTables` fixes
one such execution (insertion sort) to keep the pipeline executable. -/
def mergeTables (ts : List (List CleanedRow)) : List CleanedRow :=
  List.insertionSort dateLE (dedupFirst ts.flatten)

/-- The guarantee of the merge block (lines 118-123): the output is some
permutation of the deduplicated concatenation that is ascending in date.
`sort_values("date")` with the default (unstable) kind promises nothing
about the relative order of equal-date rows. -/
def mergeResult (ts : List (List CleanedRow)) (out : List CleanedRow) : Prop :=
  List.Perm out (dedupFirst ts.flatten) ∧ out.Sorted dateLE

/-! ### Period bucketing -/

/-- `df["date"].dt.to_period("W").apply(lambda r: r.start_time)`
(`delivery_dashboard.py` line 194).  A pandas `W` period is a Monday-to-Sunday
week; its start time on day ordinals is the Monday on or before the day
(ordinal 0 = 1970-01-01 is a Thursday, so `(d + 3) mod 7` is the
Monday-based weekday index). -/
def weekBucket (d : Int) : Int :=
  d - (d + 3) % 7

/-- The identical weekly bucketing of `app.py` line 60. -/
def weekBucket_app (d : Int) : Int :=
  d - (d + 3) % 7

/-- Day ordinals that fall on a Monday. -/
def isMonday (d : Int) : Prop :=
  (d + 3) % 7 = 0

/-- `to_period("M").start_time` (line 235): first day of the month. -/
def monthBucket (d : Int) : Int :=
  let c := civilFromDays d
  daysFromCivil c.1 c.2.1 1

/-- `to_period("Q").start_time` (line 273): first day of the quarter. -/
def quarterBucket (d : Int) : Int :=
  let c := civilFromDays d
  daysFromCivil c.1 (3 * Int.ediv (c.2.1 - 1) 3 + 1) 1

/-- `get_half_year` (lines 305-307): January 1st for months 1-6, July 1st
otherwise. -/
def get_half_year (d : Int) : Int :=
  let c := civilFromDays d
  if c.2.1 ≤ 6 then daysFromCivil c.1 1 1 else daysFromCivil c.1 7 1

/-- `to_period("Y").start_time` (line 345): January 1st. -/
def yearBucket (d : Int) : Int :=
  let c := civilFromDays d
  daysFromCivil c.1 1 1

/-! ### Aggregation (`delivery_dashboard.py` lines 194-202, 235-243, 273-278,
309-314, 345-350) -/

/-- One `(period_start, symbol)` aggregate group. -/
structure AggRow where
  period : Int
  symbol : String
  traded_qty : ℚ
  deliverable_qty : ℚ
  net_value : Option ℚ
  delivery_pct : Option ℚ
deriving DecidableEq, Repr

/-- An aggregate row together with the percent-change columns
`traded_qty_chg_%` and `deliverable_qty_chg_%`. -/
structure AggChgRow extends AggRow where
  traded_qty_chg : Option ℚ
  deliverable_qty_chg : Option ℚ
deriving DecidableEq, Repr

/-- Ordering of pandas `groupby` keys `(period, symbol)`. -/
def keyLE (a b : Int × String) : Prop :=
  a.1 < b.1 ∨ (a.1 = b.1 ∧ a.2 ≤ b.2)

instance : DecidableRel keyLE := fun a b => by
  unfold keyLE; infer_instance

instance : IsTotal (Int × String) keyLE := by
  constructor
  intro a b
  rcases lt_trichotomy a.1 b.1 with h | h | h
  · exact Or.inl (Or.inl h)
  · rcases le_total a.2 b.2 with h2 | h2
    · exact Or.inl (Or.inr ⟨h, h2⟩)
    · exact Or.inr (Or.inr ⟨h.symm, h2⟩)
  · exact Or.inr (Or.inl h)

instance : IsTrans (Int × String) keyLE := by
  constructor
  intro a b c hab hbc
  rcases hab with h1 | ⟨h1, h1'⟩
  · rcases hbc with h2 | ⟨h2, _⟩
    · exact Or.inl (h1.trans h2)
    · exact Or.inl (h2 ▸ h1)
  · rcases hbc with h2 | ⟨h2, h2'⟩
    · exact Or.inl (h1 ▸ h2)
    · exact Or.inr ⟨h1.trans h2, h1'.trans h2'⟩

/-- The group keys of `df.groupby([period, "symbol"])`: the distinct
`(bucket(date), symbol)` pairs (pandas drops null group keys), in ascending
key order. -/
def groupKeys (bucket : Int → Int) (rows : List CleanedRow) : List (Int × String) :=
  List.insertionSort keyLE
    ((rows.filterMap (fun r => r.symbol.map (fun s => (bucket r.date, s)))).dedup)

/-- `groupby([period, "symbol"], as_index=False)[["traded_qty",
"deliverable_qty", "net_value"]].sum()` followed by the per-group
`delivery_pct = 100 * deliverable / traded` assignment.  A zero traded sum
gives the non-finite sentinel (pandas never raises on float division). -/
def groupAgg (bucket : Int → Int) (rows : List CleanedRow) : List AggRow :=
  (groupKeys bucket rows).map (fun k =>
    let grp := rows.filter (fun r => decide (r.symbol = some k.2 ∧ bucket r.date = k.1))
    let t : ℚ := (grp.map (fun r => (r.traded_qty : ℚ))).sum
    let dv : ℚ := (grp.map (fun r => (r.deliverable_qty : ℚ))).sum
    let nv : ℚ := (grp.map (fun r => r.net_value.getD 0)).sum
    { period := k.1
      symbol := k.2
      traded_qty := t
      deliverable_qty := dv
      net_value := some nv
      delivery_pct := if t = 0 then none else some (100 * dv / t) })

/-- The `sort_values(["symbol", "week"])` comparison (line 200). -/
def symPeriodLE (a b : AggRow) : Prop :=
  a.symbol < b.symbol ∨ (a.symbol = b.symbol ∧ a.period ≤ b.period)

instance : DecidableRel symPeriodLE := fun a b => by
  unfold symPeriodLE; infer_instance

instance : IsTotal AggRow symPeriodLE := by
  constructor
  intro a b
  rcases lt_trichotomy a.symbol b.symbol with h | h | h
  · exact Or.inl (Or.inl h)
  · rcases le_total a.period b.period with h2 | h2
    · exact Or.inl (Or.inr ⟨h, h2⟩)
    · exact Or.inr (Or.inr ⟨h.symm, h2⟩)
  · exact Or.inr (Or.inl h)

instance : IsTrans AggRow symPeriodLE := by
  constructor
  intro a b c hab hbc
  rcases hab with h1 | ⟨h1, h1'⟩
  · rcases hbc with h2 | ⟨h2, _⟩
    · exact Or.inl (h1.trans h2)
    · exact Or.inl (h2 ▸ h1)
  · rcases hbc with h2 | ⟨h2, h2'⟩
    · exact Or.inl (h1 ▸ h2)
    · exact Or.inr ⟨h1.trans h2, h1'.trans h2'⟩

/-- `sort_values(["symbol", period])`. -/
def sortSymPeriod (l : List AggRow) : List AggRow :=
  List.insertionSort symPeriodLE l

/-- `pct_change() * 100` between a previous and a current value: undefined
(non-finite in pandas) when the previous value is zero, otherwise
`100 * (current - previous) / previous`. -/
def pctChangeVal (p c : ℚ) : Option ℚ :=
  if p = 0 then none else some (100 * (c - p) / p)

/-- `groupby("symbol")[...].pct_change() * 100` over a frame in its current
row order: each row is compared with the latest earlier row of the same
symbol; `last` accumulates the latest `(traded, deliverable)` seen per
symbol. -/
def withPctChangeAux : List AggRow → List (String × ℚ × ℚ) → List AggChgRow
  | [], _ => []
  | r :: rs, last =>
    { toAggRow := r
      traded_qty_chg := (last.lookup r.symbol).bind (fun pv => pctChangeVal pv.1 r.traded_qty)
      deliverable_qty_chg :=
        (last.lookup r.symbol).bind (fun pv => pctChangeVal pv.2 r.deliverable_qty) }
      :: withPctChangeAux rs ((r.symbol, r.traded_qty, r.deliverable_qty) :: last)

/-- The percent-change pass applied to a whole frame (lines 201-202). -/
def withPctChange (rows : List AggRow) : List AggChgRow :=
  withPctChangeAux rows []

/-- Weekly aggregation (lines 194-200): group by `(week, symbol)`, then sort
by `(symbol, week)`. -/
def weeklyAggRows (rows : List CleanedRow) : List AggRow :=
  sortSymPeriod (groupAgg weekBucket rows)

/-- The weekly table with percent-change columns (lines 194-202). -/
def weeklyTable (rows : List CleanedRow) : List AggChgRow :=
  withPctChange (weeklyAggRows rows)

/-- Monthly aggregation (lines 235-241). -/
def monthlyAggRows (rows : List CleanedRow) : List AggRow :=
  sortSymPeriod (groupAgg monthBucket rows)

/-- The monthly table with percent-change columns (lines 235-243). -/
def monthlyTable (rows : List CleanedRow) : List AggChgRow :=
  withPctChange (monthlyAggRows rows)

/-- The daily view of lines 155-157: the merged rows sorted by
`(symbol, date)`, at row grain (rows whose symbol is null are dropped, as
`groupby` ignores them). -/
def dailyAggRows (rows : List CleanedRow) : List AggRow :=
  sortSymPeriod (rows.filterMap (fun r => r.symbol.map (fun s =>
    { period := r.date
      symbol := s
      traded_qty := (r.traded_qty : ℚ)
      deliverable_qty := (r.deliverable_qty : ℚ)
      net_value := r.net_value
      delivery_pct := some r.delivery_pct })))

/-- The daily table with day-over-day percent-change columns
(lines 155-157). -/
def dailyTable (rows : List CleanedRow) : List AggChgRow :=
  withPctChange (dailyAggRows rows)

/-- Quarterly aggregation (lines 273-278): grouped sums and `delivery_pct`
only — the quarterly block computes no percent-change columns. -/
def quarterlyAggRows (rows : List CleanedRow) : List AggRow :=
  groupAgg quarterBucket rows

/-- Half-yearly aggregation (lines 309-314); no percent-change columns. -/
def halfYearlyAggRows (rows : List CleanedRow) : List AggRow :=
  groupAgg get_half_year rows

/-- Yearly aggregation (lines 345-350); no percent-change columns. -/
def yearlyAggRows (rows : List CleanedRow) : List AggRow :=
  groupAgg yearBucket rows

/-- The daily display columns (lines 166-175). -/
def daily_columns : List String :=
  ["date", "symbol", "traded_qty_mn", "deliverable_qty_mn", "delivery_pct",
   "net_value_crore", "traded_qty_chg_%", "deliverable_qty_chg_%"]

/-- The weekly display columns (lines 210-213). -/
def weekly_disp_columns : List String :=
  ["week", "symbol", "traded_qty_million", "deliverable_qty_million",
   "delivery_pct", "net_value_crore", "traded_qty_chg_%", "deliverable_qty_chg_%"]

/-- The monthly display columns (lines 251-254). -/
def monthly_disp_columns : List String :=
  ["month", "symbol", "traded_qty_million", "deliverable_qty_million",
   "delivery_pct", "net_value_crore", "traded_qty_chg_%", "deliverable_qty_chg_%"]

/-- The quarterly display columns (lines 284-286). -/
def quarterly_disp_columns : List String :=
  ["quarter", "symbol", "traded_qty_million", "deliverable_qty_million",
   "delivery_pct", "net_value_crore"]

/-- The half-yearly display columns (lines 320-322). -/
def half_disp_columns : List String :=
  ["half_year", "symbol", "traded_qty_million", "deliverable_qty_million",
   "delivery_pct", "net_value_crore"]

/-- The yearly display columns (lines 356-358). -/
def year_disp_columns : List String :=
  ["year", "symbol", "traded_qty_million", "deliverable_qty_million",
   "delivery_pct", "net_value_crore"]

/-- The continuation of a percent-change sequence given the previous traded
and deliverable values.  Stated from the spec's words (section 4.5 step 5)
for comparison with `withPctChange`. -/
def specChgFrom (pt pd : ℚ) : List AggRow → List AggChgRow
  | [] => []
  | r :: rs =>
    { toAggRow := r
      traded_qty_chg := pctChangeVal pt r.traded_qty
      deliverable_qty_chg := pctChangeVal pd r.deliverable_qty }
      :: specChgFrom r.traded_qty r.deliverable_qty rs

/-- The spec-side percent-change sequence for one symbol's ordered buckets:
the first bucket has null changes, each later bucket is compared with its
immediate predecessor (spec section 4.5 step 5). -/
def specPctChangeSeq : List AggRow → List AggChgRow
  | [] => []
  | r :: rs =>
    { toAggRow := r, traded_qty_chg := none, deliverable_qty_chg := none }
      :: specChgFrom r.traded_qty r.deliverable_qty rs

/-! ### Spike detection (`delivery_dashboard.py` lines 144-147 and 177-180) -/

/-- `df[df["delivery_pct"] >= spike_thr]` (line 144). -/
def spikesOf (rows : List CleanedRow) (thr : ℚ) : List CleanedRow :=
  rows.filter (fun r => decide (thr ≤ r.delivery_pct))

/-- `highlight_net_value` (lines 177-180): a style string for present values
strictly above the threshold, the empty style otherwise. -/
def highlight_net_value (val : Option ℚ) (thr : ℚ) : String :=
  match val with
  | some v => if thr < v then "background-color: #ffe6e6; font-weight: bold" else ""
  | none => ""

/-- Continuation form of the spec-side percent-change sequence: the head is
compared with the carried previous values when they exist, with null changes
otherwise. -/
def specChgCont (pv : Option (ℚ × ℚ)) (l : List AggRow) : List AggChgRow :=
  match pv with
  | none => specPctChangeSeq l
  | some pv => specChgFrom pv.1 pv.2 l

/-! ### Named row predicates (used in theorem statements) -/

/-- Select the aggregate rows of one symbol. -/
def bySymbol (s : String) (g : AggRow) : Bool :=
  decide (g.symbol = s)

/-- Select the aggregate-with-change rows of one symbol. -/
def bySymbolC (s : String) (g : AggChgRow) : Bool :=
  decide (g.symbol = s)

/-! ### Concrete example data (used by witnesses and counterexamples)

Day ordinals: 19723 = 2024-01-01 (a Monday), 19724 = 2024-01-02,
19730 = 2024-01-08 (the next Monday).
-/

/-- Example cleaned row with the same date as `rB` but a distinct key. -/
def rA : CleanedRow :=
  { symbol := some "AAA", date := 19723, traded_qty := 10, deliverable_qty := 5,
    delivery_pct := 50, open_ := none, close := none, net_value := none }

/-- Example cleaned row with the same date as `rA` but a distinct key. -/
def rB : CleanedRow :=
  { symbol := some "BBB", date := 19723, traded_qty := 30, deliverable_qty := 15,
    delivery_pct := 50, open_ := none, close := none, net_value := none }

/-- Example cleaned row: AAA, 2024-01-01, 10 traded, 5 delivered. -/
def m1 : CleanedRow :=
  { symbol := some "AAA", date := 19723, traded_qty := 10, deliverable_qty := 5,
    delivery_pct := 50, open_ := none, close := none, net_value := none }

/-- Example cleaned row: AAA, 2024-01-02, from the first uploaded file. -/
def m2 : CleanedRow :=
  { symbol := some "AAA", date := 19724, traded_qty := 20, deliverable_qty := 10,
    delivery_pct := 50, open_ := none, close := none, net_value := none }

/-- Example cleaned row: same `(symbol, date)` key as `m2` but different
values, as if re-uploaded in a second file. -/
def m2b : CleanedRow :=
  { symbol := some "AAA", date := 19724, traded_qty := 99, deliverable_qty := 1,
    delivery_pct := 1, open_ := none, close := none, net_value := none }

/-- Example row for weekly aggregation: AAA, week of 2024-01-01. -/
def w1 : CleanedRow :=
  { symbol := some "AAA", date := 19723, traded_qty := 1000, deliverable_qty := 500,
    delivery_pct := 50, open_ := none, close := none, net_value := none }

/-- Example row for weekly aggregation: AAA, week of 2024-01-08. -/
def w2 : CleanedRow :=
  { symbol := some "AAA", date := 19730, traded_qty := 2000, deliverable_qty := 1000,
    delivery_pct := 50, open_ := none, close := none, net_value := none }

/-- Example raw row with a thousands separator and a percent sign. -/
def exRow3 : RawRow :=
  { symbol := "AAA", date := "2024-01-02", traded_qty := "1,234",
    deliverable_qty := "600", delivery_pct := "45.6%", open_ := none, close := none }

/-- The cleaned form of `exRow3`. -/
def exClean3 : CleanedRow :=
  { symbol := some "AAA", date := 19724, traded_qty := 1234, deliverable_qty := 600,
    delivery_pct := 456/10, open_ := none, close := none, net_value := none }

/-- Example cleaned row whose traded quantity is zero. -/
def r0 : CleanedRow :=
  { symbol := some "AAA", date := 19724, traded_qty := 0, deliverable_qty := 5,
    delivery_pct := 0, open_ := none, close := none, net_value := none }

/-- The aggregate group of `[r0]` under weekly bucketing: zero traded sum,
null delivery percentage. -/
def g0 : AggRow :=
  { period := 19723, symbol := "AAA", traded_qty := 0, deliverable_qty := 5,
    net_value := some 0, delivery_pct := none }

/-- The aggregate group of `[m1]` under weekly bucketing. -/
def g1 : AggRow :=
  { period := 19723, symbol := "AAA", traded_qty := 10, deliverable_qty := 5,
    net_value := some 0, delivery_pct := some 50 }

/-- Example file missing any `Deliverable Qty` synonym. -/
def ex6 : RawTable :=
  { headers := ["Symbol", "Date", "Qty Traded", "% Dly Qt to Traded Qty"], rows := [] }

/-- Example file with all required columns present. -/
def ex6ok : RawTable :=
  { headers := ["Symbol", "Date", "Traded Qty", "Deliverable Qty", "Delivery Pct"],
    rows := [] }

/-- Example raw row for a file without an `open` column. -/
def ex7row : RawRow :=
  { symbol := "AAA", date := "2024-01-02", traded_qty := "1000",
    deliverable_qty := "600", delivery_pct := "60", open_ := none, close := none }

/-- Example file without an `open` column. -/
def ex7 : RawTable :=
  { headers := ["Symbol", "Date", "Traded Qty", "Deliverable Qty",
                "% Dly Qt to Traded Qty"],
    rows := [ex7row] }

/-- The cleaned form of `ex7row` in a file without `open`. -/
def ex7clean : CleanedRow :=
  { symbol := some "AAA", date := 19724, traded_qty := 1000, deliverable_qty := 600,
    delivery_pct := 60, open_ := none, close := none, net_value := none }

/-- Example raw row for a file with an `open` column. -/
def ex7orow : RawRow :=
  { symbol := "AAA", date := "2024-01-02", traded_qty := "1000",
    deliverable_qty := "600", delivery_pct := "60", open_ := some "10.5", close := none }

/-- Example file with an `open` column. -/
def ex7o : RawTable :=
  { headers := ["Symbol", "Date", "Traded Qty", "Deliverable Qty",
                "% Dly Qt to Traded Qty", "Open"],
    rows := [ex7orow] }

/-- The cleaned form of `ex7orow`: `net_value = 600 * 10.5 = 6300`. -/
def ex7oclean : CleanedRow :=
  { symbol := some "AAA", date := 19724, traded_qty := 1000, deliverable_qty := 600,
    delivery_pct := 60, open_ := some (21/2), close := none, net_value := some 6300 }

/-- Example raw row whose delivery percentage exceeds 100. -/
def ex9 : RawRow :=
  { symbol := "BBB", date := "2024-01-02", traded_qty := "1000",
    deliverable_qty := "1206", delivery_pct := "120.5", open_ := none, close := none }

/-- The cleaned form of `ex9`: the out-of-range percentage is kept as parsed. -/
def ex9c : CleanedRow :=
  { symbol := some "BBB", date := 19724, traded_qty := 1000, deliverable_qty := 1206,
    delivery_pct := 241/2, open_ := none, close := none, net_value := none }

/-- Spike example rows with delivery percentages 80, 60, 75, 90. -/
def s80 : CleanedRow :=
  { symbol := some "AAA", date := 19723, traded_qty := 100, deliverable_qty := 80,
    delivery_pct := 80, open_ := none, close := none, net_value := none }

/-- See `s80`. -/
def s60 : CleanedRow :=
  { symbol := some "AAA", date := 19724, traded_qty := 100, deliverable_qty := 60,
    delivery_pct := 60, open_ := none, close := none, net_value := none }

/-- See `s80`. -/
def s75 : CleanedRow :=
  { symbol := some "AAA", date := 19725, traded_qty := 100, deliverable_qty := 75,
    delivery_pct := 75, open_ := none, close := none, net_value := none }

/-- See `s80`. -/
def s90 : CleanedRow :=
  { symbol := some "AAA", date := 19726, traded_qty := 100, deliverable_qty := 90,
    delivery_pct := 90, open_ := none, close := none, net_value := none }

/-- The weekly aggregate row of `[w1, w2]` for the week of 2024-01-01. -/
def wk1 : AggChgRow :=
  { period := 19723, symbol := "AAA", traded_qty := 1000, deliverable_qty := 500,
    net_value := some 0, delivery_pct := some 50,
    traded_qty_chg := none, deliverable_qty_chg := none }

/-- The weekly aggregate row of `[w1, w2]` for the week of 2024-01-08:
both quantities doubled, so both percent changes are 100. -/
def wk2 : AggChgRow :=
  { period := 19730, symbol := "AAA", traded_qty := 2000, deliverable_qty := 1000,
    net_value := some 0, delivery_pct := some 50,
    traded_qty_chg := some 100, deliverable_qty_chg := some 100 }

/-! ## Theorems -/

/-- C8: header normalization trims whitespace, lowercases, and replaces
spaces with underscores, in that order, then looks the result up in the
static synonym table `COL_MAP`; headers whose normalized form is not in the
table pass through unchanged, and the function is total. -/
theorem header_normalization_spec (c : String) :
    normalizeHeader c = pyUnderscore (pyLower (pyStrip c)) ∧
    (COL_MAP.lookup (normalizeHeader c) = none → renameHeader c = normalizeHeader c) ∧
    (∀ v, COL_MAP.lookup (normalizeHeader c) = some v → renameHeader c = v) := by
  refine ⟨rfl, ?_, ?_⟩
  · intro h
    simp only [renameHeader, h, Option.getD_none]
  · intro v h
    simp only [renameHeader, h, Option.getD_some]

/-- Witness for C8: a synonym header maps to its canonical name and an
unknown header passes through in normalized form. -/
theorem header_normalization_witness :
    renameHeader " Traded Qty " = "traded_qty" ∧
    renameHeader "Unknown Col" = "unknown_col" := by
  constructor
  · exact (header_normalization_spec " Traded Qty ").2.2 "traded_qty"
      (by with_unfolding_all decide)
  · exact ((header_normalization_spec "Unknown Col").2.1
      (by with_unfolding_all decide)).trans (by with_unfolding_all decide)

/-- C6: the cleaner fails exactly when a required canonical column is
missing after header normalization, with an error message naming precisely
the missing required fields; with all required columns present it returns
the cleaned table and never raises this error. -/
theorem schema_error_spec (t : RawTable) :
    (∀ c, c ∈ missingOf t.headers ↔ c ∈ REQUIRED ∧ c ∉ renamedHeaders t.headers) ∧
    (missingOf t.headers ≠ [] →
      load_and_clean t =
        Except.error ("Missing column(s): " ++ joinComma (missingOf t.headers))) ∧
    (missingOf t.headers = [] →
      load_and_clean t =
        Except.ok { columns := cleanedColumns t.headers, rows := cleanRows t }) := by
  refine ⟨?_, ?_, ?_⟩
  · intro c
    simp [missingOf, List.mem_filter]
  · intro h
    simp only [load_and_clean]
    rw [if_neg h]
  · intro h
    simp only [load_and_clean]
    rw [if_pos h]

/-- Witness for C6: a file missing any `Deliverable Qty` synonym fails
naming `deliverable_qty`; a file with all required columns succeeds. -/
theorem schema_error_witness :
    load_and_clean ex6 = Except.error "Missing column(s): deliverable_qty" ∧
    load_and_clean ex6ok =
      Except.ok { columns := cleanedColumns ex6ok.headers, rows := cleanRows ex6ok } := by
  constructor
  · rw [(schema_error_spec ex6).2.1 (by with_unfolding_all decide)]
    exact congrArg Except.error (by with_unfolding_all decide)
  · exact (schema_error_spec ex6ok).2.2 (by with_unfolding_all decide)

/-- C5: spike detection returns exactly the rows whose delivery percentage
is greater than or equal to the threshold (inclusive boundary), while
net-value highlighting marks a value only when it is present and strictly
greater than its threshold. -/
theorem spike_threshold_spec (rows : List CleanedRow) (thr : ℚ) :
    (∀ r, r ∈ spikesOf rows thr ↔ r ∈ rows ∧ thr ≤ r.delivery_pct) ∧
    (∀ v : ℚ, highlight_net_value (some v) thr ≠ "" ↔ thr < v) ∧
    highlight_net_value none thr = "" := by
  refine ⟨?_, ?_, rfl⟩
  · intro r
    simp [spikesOf, List.mem_filter]
  · intro v
    show (if thr < v then "background-color: #ffe6e6; font-weight: bold" else "") ≠ ""
      ↔ thr < v
    by_cases h : thr < v
    · rw [if_pos h]
      exact ⟨fun _ => h, fun _ => by decide⟩
    · rw [if_neg h]
      exact iff_of_false (by simp) h

/-- Witness for C5: threshold 75 over delivery percentages 80, 60, 75, 90
selects exactly 80, 75, 90 (boundary included), and a present net value
above its threshold is highlighted. -/
theorem spike_threshold_witness :
    s80 ∈ spikesOf [s80, s60, s75, s90] 75 ∧
    spikesOf [s80, s60, s75, s90] 75 = [s80, s75, s90] ∧
    highlight_net_value (some 4) 3 ≠ "" := by
  refine ⟨?_, by decide, ?_⟩
  · exact ((spike_threshold_spec [s80, s60, s75, s90] 75).1 s80).mpr
      ⟨by decide, by decide⟩
  · exact ((spike_threshold_spec [] 3).2.1 4).mpr (by decide)

/-- C10: weekly bucketing maps every day ordinal to the Monday on or before
it — the unique Monday within the six preceding days — so all days of one
Monday-to-Sunday week share one bucket start, and both dashboard variants
use the identical convention. -/
theorem week_bucket_monday_spec (d : Int) :
    isMonday (weekBucket d) ∧ weekBucket d ≤ d ∧ d < weekBucket d + 7 ∧
    weekBucket_app d = weekBucket d ∧
    (∀ m : Int, isMonday m → m ≤ d → d < m + 7 → m = weekBucket d) ∧
    (∀ e : Int, weekBucket e = weekBucket d ↔ weekBucket d ≤ e ∧ e < weekBucket d + 7) := by
  unfold isMonday weekBucket weekBucket_app
  refine ⟨by omega, by omega, by omega, rfl, ?_, ?_⟩
  · intro m hm h1 h2
    omega
  · intro e
    constructor <;> intro h <;> omega

/-- Witness for C10: 2024-01-03 (ordinal 19725) buckets to Monday
2024-01-01 (ordinal 19723) in both variants. -/
theorem week_bucket_monday_witness :
    (19723 : Int) = weekBucket 19725 ∧ weekBucket_app 19725 = weekBucket 19725 := by
  refine ⟨?_, (week_bucket_monday_spec 19725).2.2.2.1⟩
  exact (week_bucket_monday_spec 19725).2.2.2.2.1 19723
    (by unfold isMonday; decide) (by decide) (by decide)

/-- C4: in every aggregation group, at every granularity, `delivery_pct`
equals `100 * deliverable_sum / traded_sum`, and a zero traded sum yields
the null sentinel — the aggregation never raises on division by zero. -/
theorem delivery_pct_division_spec (bucket : Int → Int) (rows : List CleanedRow) :
    ∀ g ∈ groupAgg bucket rows,
      (g.traded_qty = 0 → g.delivery_pct = none) ∧
      (g.traded_qty ≠ 0 → g.delivery_pct = some (100 * g.deliverable_qty / g.traded_qty)) := by
  intro g hg
  unfold groupAgg at hg
  rcases List.mem_map.mp hg with ⟨k, hk, rfl⟩
  dsimp only
  constructor
  · intro h0
    rw [if_pos h0]
  · intro h0
    rw [if_neg h0]

/-- Witness for C4: a group whose traded sum is zero gets a null
`delivery_pct`; a nonzero group gets the exact ratio. -/
theorem delivery_pct_division_witness :
    g0.delivery_pct = none ∧
    g1.delivery_pct = some (100 * g1.deliverable_qty / g1.traded_qty) := by
  constructor
  · refine (delivery_pct_division_spec weekBucket [r0] g0 ?_).1 rfl
    have h : groupAgg weekBucket [r0] = [g0] := by with_unfolding_all rfl
    rw [h]
    exact List.mem_singleton_self g0
  · refine (delivery_pct_division_spec weekBucket [m1] g1 ?_).2 (by decide)
    have h : groupAgg weekBucket [m1] = [g1] := by with_unfolding_all rfl
    rw [h]
    exact List.mem_singleton_self g1

/-- Helper: numeric-cell coercion equals strip-then-parse on every cell:
the sentinel tokens and a cell that strips to the empty string fail to
parse anyway, so the sentinel pass changes no outcome. -/
theorem numericField_eq (s : String) : numericField s = parseDecimal (stripNumeric s) := by
  unfold numericField sentinelize
  by_cases hs : s ∈ ["-", "NA", "N/A", "na", ""]
  · rw [if_pos hs]
    simp only [Option.none_bind]
    simp only [List.mem_cons, List.not_mem_nil, or_false] at hs
    rcases hs with rfl | rfl | rfl | rfl | rfl <;> decide
  · rw [if_neg hs]
    simp only [Option.some_bind]
    by_cases ht : stripNumeric s = ""
    · rw [if_pos ht, ht]
      decide
    · rw [if_neg ht]

/-- Helper: a row surviving the cleaner carries its numeric fields as the
stripped-and-parsed cell values — the quantities truncated to integers, the
delivery percentage exactly as parsed, and the optional open and close
prices strip-parsed with unparseable cells left null. -/
theorem cleanRow_fields (ho hc : Bool) (r : RawRow) (c : CleanedRow)
    (h : cleanRow ho hc r = some c) :
    (parseDecimal (stripNumeric r.traded_qty)).map ratTrunc = some c.traded_qty ∧
    (parseDecimal (stripNumeric r.deliverable_qty)).map ratTrunc = some c.deliverable_qty ∧
    parseDecimal (stripNumeric r.delivery_pct) = some c.delivery_pct ∧
    c.open_ = (if ho then r.open_ else none).bind
      (fun s => parseDecimal (stripNumeric s)) ∧
    c.close = (if hc then r.close else none).bind
      (fun s => parseDecimal (stripNumeric s)) := by
  unfold cleanRow at h
  cases hd : (sentinelize r.date).bind parseDate <;> rw [hd] at h
  case none => exact absurd h (by simp)
  cases ht : numericField r.traded_qty <;> rw [ht] at h
  case none => exact absurd h (by simp)
  cases hv : numericField r.deliverable_qty <;> rw [hv] at h
  case none => exact absurd h (by simp)
  cases hp : numericField r.delivery_pct <;> rw [hp] at h
  case none => exact absurd h (by simp)
  rw [← Option.some_inj.mp h]
  refine ⟨?_, ?_, ?_, ?_, ?_⟩
  · rw [← numericField_eq, ht]
    rfl
  · rw [← numericField_eq, hv]
    rfl
  · rw [← numericField_eq, hp]
  · cases ho
    · rfl
    · cases hopen : r.open_
      · rfl
      · exact numericField_eq _
  · cases hc
    · rfl
    · cases hclose : r.close
      · rfl
      · exact numericField_eq _

/-- C3: every numeric cell — traded_qty, deliverable_qty, delivery_pct,
and the optional open and close — is cleaned by stripping thousands
separators and percent signs and parsing the remainder as a number, with
unparseable values becoming null; a row is dropped exactly when its date or
one of the three mandatory numeric cells is null (a null open or close is
kept); surviving rows carry the quantities truncated to integers and the
delivery percentage exactly as parsed. -/
theorem clean_numeric_parse_spec (ho hc : Bool) (r : RawRow) :
    (∀ c : CleanedRow, cleanRow ho hc r = some c →
      (parseDecimal (stripNumeric r.traded_qty)).map ratTrunc = some c.traded_qty ∧
      (parseDecimal (stripNumeric r.deliverable_qty)).map ratTrunc = some c.deliverable_qty ∧
      parseDecimal (stripNumeric r.delivery_pct) = some c.delivery_pct ∧
      c.open_ = (if ho then r.open_ else none).bind
        (fun s => parseDecimal (stripNumeric s)) ∧
      c.close = (if hc then r.close else none).bind
        (fun s => parseDecimal (stripNumeric s))) ∧
    (cleanRow ho hc r = none ↔
      ((sentinelize r.date).bind parseDate = none ∨
       parseDecimal (stripNumeric r.traded_qty) = none ∨
       parseDecimal (stripNumeric r.deliverable_qty) = none ∨
       parseDecimal (stripNumeric r.delivery_pct) = none)) := by
  refine ⟨fun c h => cleanRow_fields ho hc r c h, ?_, ?_⟩
  · intro h
    cases hd : (sentinelize r.date).bind parseDate
    case none => exact Or.inl rfl
    cases ht : numericField r.traded_qty
    case none => exact Or.inr (Or.inl (by rw [← numericField_eq]; exact ht))
    cases hv : numericField r.deliverable_qty
    case none => exact Or.inr (Or.inr (Or.inl (by rw [← numericField_eq]; exact hv)))
    cases hp : numericField r.delivery_pct
    case none => exact Or.inr (Or.inr (Or.inr (by rw [← numericField_eq]; exact hp)))
    exfalso
    unfold cleanRow at h
    rw [hd, ht, hv, hp] at h
    exact absurd h (by simp)
  · intro h
    unfold cleanRow
    rcases h with hd | ht | hv | hp
    · rw [hd]
    · rw [show numericField r.traded_qty = none from by rw [numericField_eq]; exact ht]
      cases hd : (sentinelize r.date).bind parseDate <;> rfl
    · rw [show numericField r.deliverable_qty = none from by
        rw [numericField_eq]; exact hv]
      cases hd : (sentinelize r.date).bind parseDate <;>
        cases ht : numericField r.traded_qty <;> rfl
    · rw [show numericField r.delivery_pct = none from by
        rw [numericField_eq]; exact hp]
      cases hd : (sentinelize r.date).bind parseDate <;>
        cases ht : numericField r.traded_qty <;>
          cases hv : numericField r.deliverable_qty <;> rfl

/-- Witness for C3: `"1,234"` parses to the integer 1234, `"45.6%"` to the
rational 45.6, and an open cell `"10.5"` strip-parses to 10.5. -/
theorem clean_numeric_parse_witness :
    (parseDecimal (stripNumeric "1,234")).map ratTrunc = some (1234 : Int) ∧
    parseDecimal (stripNumeric "45.6%") = some (456/10 : ℚ) ∧
    ex7oclean.open_ = some (21/2 : ℚ) ∧
    parseDecimal (stripNumeric "10.5") = some (21/2 : ℚ) := by
  have h := (clean_numeric_parse_spec false false exRow3).1 exClean3
    (by with_unfolding_all rfl)
  have ho := (clean_numeric_parse_spec true false ex7orow).1 ex7oclean
    (by with_unfolding_all rfl)
  exact ⟨h.1, h.2.2.1, (ho.2.2.2.1).trans (by with_unfolding_all rfl),
    by with_unfolding_all decide⟩

/-- Counterexample to C7: for a file with no `open` column, the cleaner
still materializes the `net_value` column (line 104 assigns it
unconditionally); the column is present and all its values are null, not
absent as claimed. -/
theorem net_value_counterexample :
    "open" ∉ renamedHeaders ex7.headers ∧
    "net_value" ∈ cleanedColumns ex7.headers ∧
    cleanRows ex7 = [ex7clean] ∧
    ex7clean.net_value = none := by
  refine ⟨by decide, by decide, by with_unfolding_all rfl, rfl⟩

/-- C7 (amended): the `net_value` column is always materialized; when the
`open` column is present each surviving row has
`net_value = deliverable_qty * open` (null when that row's open is null),
and when `open` is absent every row's net value is null. -/
theorem net_value_materialized_spec (t : RawTable) :
    "net_value" ∈ cleanedColumns t.headers ∧
    (hasOpenCol t = true → ∀ c ∈ cleanRows t,
      c.net_value = c.open_.map (fun o => (c.deliverable_qty : ℚ) * o)) ∧
    (hasOpenCol t = false → ∀ c ∈ cleanRows t, c.net_value = none) := by
  refine ⟨?_, ?_, ?_⟩
  · simp only [cleanedColumns]
    by_cases hm : "net_value" ∈ renamedHeaders t.headers
    · rw [if_pos hm]
      exact hm
    · rw [if_neg hm]
      exact List.mem_append_right _ (by simp)
  · intro hho c hc
    rcases List.mem_filterMap.mp hc with ⟨raw, _, hclean⟩
    rw [hho] at hclean
    unfold cleanRow at hclean
    cases hd : (sentinelize raw.date).bind parseDate <;> rw [hd] at hclean
    case none => exact absurd hclean (by simp)
    cases ht : numericField raw.traded_qty <;> rw [ht] at hclean
    case none => exact absurd hclean (by simp)
    cases hv : numericField raw.deliverable_qty <;> rw [hv] at hclean
    case none => exact absurd hclean (by simp)
    cases hp : numericField raw.delivery_pct <;> rw [hp] at hclean
    case none => exact absurd hclean (by simp)
    rw [← Option.some_inj.mp hclean]
    rfl
  · intro hho c hc
    rcases List.mem_filterMap.mp hc with ⟨raw, _, hclean⟩
    rw [hho] at hclean
    unfold cleanRow at hclean
    cases hd : (sentinelize raw.date).bind parseDate <;> rw [hd] at hclean
    case none => exact absurd hclean (by simp)
    cases ht : numericField raw.traded_qty <;> rw [ht] at hclean
    case none => exact absurd hclean (by simp)
    cases hv : numericField raw.deliverable_qty <;> rw [hv] at hclean
    case none => exact absurd hclean (by simp)
    cases hp : numericField raw.delivery_pct <;> rw [hp] at hclean
    case none => exact absurd hclean (by simp)
    rw [← Option.some_inj.mp hclean]
    rfl

/-- Witness for C7 (amended): with an `open` column present, the cleaned
row of `ex7o` carries `net_value = 600 * 10.5 = 6300`. -/
theorem net_value_materialized_witness :
    "net_value" ∈ cleanedColumns ex7o.headers ∧
    ex7oclean.net_value = some (6300 : ℚ) := by
  refine ⟨(net_value_materialized_spec ex7o).1, ?_⟩
  have hmem : ex7oclean ∈ cleanRows ex7o := by
    have he : cleanRows ex7o = [ex7oclean] := by with_unfolding_all rfl
    rw [he]
    exact List.mem_singleton_self ex7oclean
  have h := (net_value_materialized_spec ex7o).2.1 (by decide) ex7oclean hmem
  exact h.trans (by with_unfolding_all rfl)

/-- Helper: deduplication returns a sublist of its input (rows are selected,
never modified or reordered). -/
theorem dedupFirstAux_sublist (l : List CleanedRow) :
    ∀ seen, List.Sublist (dedupFirstAux seen l) l := by
  induction l with
  | nil =>
    intro seen
    exact List.Sublist.refl []
  | cons a l ih =>
    intro seen
    unfold dedupFirstAux
    by_cases h : rowKey a ∈ seen
    · rw [if_pos h]
      exact (ih seen).cons a
    · rw [if_neg h]
      exact (ih (rowKey a :: seen)).cons₂ a

/-- Helper: every retained row's key is outside the already-seen set. -/
theorem dedupFirstAux_key_not_seen (l : List CleanedRow) :
    ∀ seen, ∀ r ∈ dedupFirstAux seen l, rowKey r ∉ seen := by
  induction l with
  | nil =>
    intro seen r hr
    exact absurd hr (by simp [dedupFirstAux])
  | cons a l ih =>
    intro seen r hr
    unfold dedupFirstAux at hr
    by_cases h : rowKey a ∈ seen
    · rw [if_pos h] at hr
      exact ih seen r hr
    · rw [if_neg h] at hr
      rcases List.mem_cons.mp hr with rfl | hr2
      · exact h
      · intro hseen
        exact ih (rowKey a :: seen) r hr2 (List.mem_cons_of_mem _ hseen)

/-- Helper: the retained rows have pairwise distinct `(symbol, date)`
keys. -/
theorem dedupFirstAux_pairwise (l : List CleanedRow) :
    ∀ seen, (dedupFirstAux seen l).Pairwise (fun a b => rowKey a ≠ rowKey b) := by
  induction l with
  | nil =>
    intro seen
    simp [dedupFirstAux]
  | cons a l ih =>
    intro seen
    unfold dedupFirstAux
    by_cases h : rowKey a ∈ seen
    · rw [if_pos h]
      exact ih seen
    · rw [if_neg h]
      refine List.Pairwise.cons ?_ (ih (rowKey a :: seen))
      intro b hb heq
      exact dedupFirstAux_key_not_seen l (rowKey a :: seen) b hb
        (by rw [← heq]; exact List.mem_cons_self _ _)

/-- Helper: a row preceded by no row of the same key is retained — the first
occurrence in concatenation order wins. -/
theorem dedupFirstAux_first_wins (l1 : List CleanedRow) :
    ∀ (seen : List (Option String × Int)) (r : CleanedRow) (l2 : List CleanedRow),
      (∀ s ∈ l1, rowKey s ≠ rowKey r) → rowKey r ∉ seen →
      r ∈ dedupFirstAux seen (l1 ++ r :: l2) := by
  induction l1 with
  | nil =>
    intro seen r l2 _ hseen
    rw [List.nil_append]
    simp only [dedupFirstAux]
    rw [if_neg hseen]
    exact List.mem_cons_self _ _
  | cons a l1 ih =>
    intro seen r l2 hne hseen
    simp only [List.cons_append]
    simp only [dedupFirstAux]
    by_cases h : rowKey a ∈ seen
    · rw [if_pos h]
      exact ih seen r l2 (fun s hs => hne s (List.mem_cons_of_mem _ hs)) hseen
    · rw [if_neg h]
      refine List.mem_cons_of_mem _ (ih (rowKey a :: seen) r l2
        (fun s hs => hne s (List.mem_cons_of_mem _ hs)) ?_)
      intro hx
      rcases List.mem_cons.mp hx with h1 | h2
      · exact hne a (List.mem_cons_self _ _) h1.symm
      · exact hseen h2

/-- Helper: every input key is represented among the retained rows. -/
theorem dedupFirstAux_covers (l : List CleanedRow) :
    ∀ seen, ∀ r ∈ l, rowKey r ∉ seen →
      ∃ s ∈ dedupFirstAux seen l, rowKey s = rowKey r := by
  induction l with
  | nil =>
    intro seen r hr
    exact absurd hr (by simp)
  | cons a l ih =>
    intro seen r hr hseen
    unfold dedupFirstAux
    by_cases h : rowKey a ∈ seen
    · rw [if_pos h]
      rcases List.mem_cons.mp hr with rfl | hr2
      · exact absurd h hseen
      · exact ih seen r hr2 hseen
    · rw [if_neg h]
      by_cases hk : rowKey r = rowKey a
      · exact ⟨a, List.mem_cons_self _ _, hk.symm⟩
      · rcases List.mem_cons.mp hr with rfl | hr2
        · exact absurd rfl hk
        · have hnotin : rowKey r ∉ rowKey a :: seen := by
            intro hx
            rcases List.mem_cons.mp hx with h1 | h2
            · exact hk h1
            · exact hseen h2
          rcases ih (rowKey a :: seen) r hr2 hnotin with ⟨s, hs, hsk⟩
          exact ⟨s, List.mem_cons_of_mem _ hs, hsk⟩


/-- Counterexample to C1 as stated: the sort step in the merge block is
`sort_values("date")` with pandas' default kind, which is not documented as
stable, so the program guarantees only some date-ordered permutation of the
deduplicated concatenation.  The output `[rB, rA]` reverses the original
relative order of the two equal-date rows of the single input file, yet
satisfies everything the program guarantees — "stable sort, ties broken by
original relative order" is not a property of the program. -/
theorem merge_stability_counterexample :
    mergeResult [[rA, rB]] [rB, rA] ∧
    dedupFirst ([[rA, rB]] : List (List CleanedRow)).flatten = [rA, rB] ∧
    rA.date = rB.date ∧
    [rB, rA] ≠ [rA, rB] := by
  have hd : dedupFirst ([[rA, rB]] : List (List CleanedRow)).flatten = [rA, rB] := by
    with_unfolding_all rfl
  refine ⟨⟨?_, ?_⟩, hd, rfl, by decide⟩
  · rw [hd]
    exact List.Perm.swap rA rB []
  · refine List.sorted_cons.mpr ⟨?_, List.sorted_singleton rA⟩
    intro b hb
    have hb' : b = rA := List.mem_singleton.mp hb
    subst hb'
    decide

/-- C1 (amended): every merge output the program can produce — any
date-ordered permutation of the deduplicated concatenation — has pairwise
distinct `(symbol, date)` keys, is ascending in date, consists solely of
unmodified input rows, contains the first occurrence of every key
(earlier-uploaded files win on conflict), and represents every input key;
the executable `mergeTables` is such an output.  The relative order of
equal-date rows is not part of the guarantee. -/
theorem merge_dedup_sort_spec (ts : List (List CleanedRow)) :
    mergeResult ts (mergeTables ts) ∧
    (∀ out : List CleanedRow, mergeResult ts out →
      out.Pairwise (fun a b => rowKey a ≠ rowKey b) ∧
      out.Sorted dateLE ∧
      (∀ r ∈ out, r ∈ ts.flatten) ∧
      (∀ (l1 : List CleanedRow) (r : CleanedRow) (l2 : List CleanedRow),
        ts.flatten = l1 ++ r :: l2 → (∀ s ∈ l1, rowKey s ≠ rowKey r) →
        r ∈ out) ∧
      (∀ r ∈ ts.flatten, ∃ s ∈ out, rowKey s = rowKey r)) := by
  constructor
  · exact ⟨List.perm_insertionSort dateLE (dedupFirst ts.flatten),
      List.sorted_insertionSort dateLE (dedupFirst ts.flatten)⟩
  · intro out hout
    obtain ⟨hperm, hsort⟩ := hout
    refine ⟨?_, hsort, ?_, ?_, ?_⟩
    · exact (hperm.pairwise_iff (fun hab => Ne.symm hab)).mpr
        (dedupFirstAux_pairwise ts.flatten [])
    · intro r hr
      exact (dedupFirstAux_sublist ts.flatten []).subset (hperm.mem_iff.mp hr)
    · intro l1 r l2 hflat hne
      refine hperm.mem_iff.mpr ?_
      unfold dedupFirst
      rw [hflat]
      exact dedupFirstAux_first_wins l1 [] r l2 hne (by simp)
    · intro r hr
      rcases dedupFirstAux_covers ts.flatten [] r hr (by simp) with ⟨s, hs, hk⟩
      exact ⟨s, hperm.mem_iff.mpr hs, hk⟩

/-- Witness for C1 (amended): merging two files that overlap on one
`(symbol, date)` key keeps exactly the first file's row for that key, and
the executable merge realizes the guarantee. -/
theorem merge_dedup_sort_witness :
    m2 ∈ mergeTables [[m1, m2], [m2b]] ∧
    m2b ∉ mergeTables [[m1, m2], [m2b]] ∧
    mergeTables [[m1, m2], [m2b]] = [m1, m2] := by
  have h := merge_dedup_sort_spec [[m1, m2], [m2b]]
  have he : mergeTables [[m1, m2], [m2b]] = [m1, m2] := by with_unfolding_all rfl
  refine ⟨?_, by rw [he]; decide, he⟩
  exact (h.2 (mergeTables [[m1, m2], [m2b]]) h.1).2.2.2.1 [m1] m2 [m2b]
    (by rfl) (by decide)

/-- C9: a surviving row's delivery percentage is exactly the value parsed
from its source cell — neither cleaning nor merging clamps or otherwise
alters it, so an out-of-range value such as 120.5 passes through
unchanged. -/
theorem delivery_pct_no_clamp_spec :
    (∀ ts : List (List CleanedRow), ∀ r ∈ mergeTables ts, r ∈ ts.flatten) ∧
    (∀ (ho hc : Bool) (raw : RawRow) (c : CleanedRow), cleanRow ho hc raw = some c →
      parseDecimal (stripNumeric raw.delivery_pct) = some c.delivery_pct) := by
  constructor
  · intro ts r hr
    exact (dedupFirstAux_sublist ts.flatten []).subset
      ((List.perm_insertionSort dateLE (dedupFirst ts.flatten)).mem_iff.mp hr)
  · intro ho hc raw c h
    exact (cleanRow_fields ho hc raw c h).2.2.1

/-- Witness for C9: a row with delivery percentage `"120.5"` survives
cleaning with the value 120.5 and passes through the merge unchanged. -/
theorem delivery_pct_no_clamp_witness :
    ex9c ∈ ([[ex9c]] : List (List CleanedRow)).flatten ∧
    parseDecimal (stripNumeric "120.5") = some (241/2 : ℚ) := by
  constructor
  · have he : mergeTables [[ex9c]] = [ex9c] := by with_unfolding_all rfl
    exact delivery_pct_no_clamp_spec.1 [[ex9c]] ex9c
      (by rw [he]; exact List.mem_singleton_self ex9c)
  · exact delivery_pct_no_clamp_spec.2 false false ex9 ex9c
      (by with_unfolding_all rfl)

/-- Helper: restricted to any one symbol, the grouped percent-change pass
equals the spec-side sequential definition, continuing from the values
carried in the accumulator. -/
theorem withPctChangeAux_filter (s : String) (rows : List AggRow) :
    ∀ last : List (String × ℚ × ℚ),
      (withPctChangeAux rows last).filter (bySymbolC s) =
        specChgCont (last.lookup s) (rows.filter (bySymbol s)) := by
  induction rows with
  | nil =>
    intro last
    cases hl : last.lookup s <;> rfl
  | cons r rs ih =>
    intro last
    simp only [withPctChangeAux, List.filter_cons]
    by_cases hs : r.symbol = s
    · subst hs
      simp only [bySymbolC, bySymbol, decide_eq_true_eq, if_pos rfl]
      rw [ih ((r.symbol, r.traded_qty, r.deliverable_qty) :: last)]
      simp only [List.lookup, beq_self_eq_true, if_pos rfl]
      cases hl : last.lookup r.symbol <;> rfl
    · have hbeq : (s == r.symbol) = false :=
        beq_eq_false_iff_ne.mpr (fun h => hs h.symm)
      simp only [bySymbolC, bySymbol, decide_eq_true_eq, if_neg hs]
      rw [ih ((r.symbol, r.traded_qty, r.deliverable_qty) :: last)]
      simp only [List.lookup, hbeq]

/-- Helper: the full percent-change pass (empty accumulator) restricted to
one symbol equals the spec-side sequence over that symbol's rows. -/
theorem withPctChange_filter (rows : List AggRow) (s : String) :
    (withPctChange rows).filter (bySymbolC s) =
      specPctChangeSeq (rows.filter (bySymbol s)) :=
  withPctChangeAux_filter s rows []

/-- Helper: the aggregate groups of one `groupby` have pairwise distinct
`(period, symbol)` keys. -/
theorem groupAgg_pairwise_keys (bucket : Int → Int) (rows : List CleanedRow) :
    (groupAgg bucket rows).Pairwise
      (fun a b => (a.period, a.symbol) ≠ (b.period, b.symbol)) := by
  unfold groupAgg
  rw [List.pairwise_map]
  have hnd : (groupKeys bucket rows).Nodup := by
    unfold groupKeys
    exact ((List.perm_insertionSort keyLE _).nodup_iff).mpr (List.nodup_dedup _)
  refine List.Pairwise.imp ?_ hnd
  intro j k hjk heq
  apply hjk
  have h1 : j.1 = k.1 := congrArg Prod.fst heq
  have h2 : j.2 = k.2 := congrArg Prod.snd heq
  exact Prod.ext h1 h2

/-- Helper: within one symbol, the sorted aggregate's period starts are
strictly increasing — each row's predecessor in the symbol's sequence is
the immediately preceding period bucket. -/
theorem sortSymPeriod_filter_periods (bucket : Int → Int) (rows : List CleanedRow)
    (s : String) :
    ((sortSymPeriod (groupAgg bucket rows)).filter (bySymbol s)).Pairwise
      (fun a b => a.period < b.period) := by
  have hpair : (sortSymPeriod (groupAgg bucket rows)).Pairwise
      (fun a b => (a.period, a.symbol) ≠ (b.period, b.symbol)) :=
    ((List.perm_insertionSort symPeriodLE (groupAgg bucket rows)).pairwise_iff
      (fun hab => Ne.symm hab)).mpr (groupAgg_pairwise_keys bucket rows)
  have hsorted : (sortSymPeriod (groupAgg bucket rows)).Sorted symPeriodLE :=
    List.sorted_insertionSort symPeriodLE (groupAgg bucket rows)
  have hpf : ((sortSymPeriod (groupAgg bucket rows)).filter (bySymbol s)).Pairwise
      (fun a b => (a.period, a.symbol) ≠ (b.period, b.symbol)) :=
    hpair.sublist (List.filter_sublist _)
  have hsf : ((sortSymPeriod (groupAgg bucket rows)).filter (bySymbol s)).Sorted
      symPeriodLE :=
    hsorted.filter (bySymbol s)
  have hcomb : ((sortSymPeriod (groupAgg bucket rows)).filter (bySymbol s)).Pairwise
      (fun a b => a.symbol = s → b.symbol = s → a.period < b.period) := by
    refine List.Pairwise.imp₂ ?_ hpf hsf
    intro a b hne hle has hbs
    rcases hle with hlt | ⟨hsym, hper⟩
    · rw [has, hbs] at hlt
      exact absurd hlt (lt_irrefl s)
    · rcases lt_or_eq_of_le hper with h | h
      · exact h
      · exact absurd (Prod.ext h hsym) hne
  refine hcomb.imp_of_mem ?_
  intro a b ha hb h
  have has : a.symbol = s := by
    have h1 : bySymbol s a = true := List.of_mem_filter ha
    simpa [bySymbol] using h1
  have hbs : b.symbol = s := by
    have h1 : bySymbol s b = true := List.of_mem_filter hb
    simpa [bySymbol] using h1
  exact h has hbs

/-- Counterexample to C2: the daily, weekly, and monthly tables carry the
percent-change columns, but the quarterly, half-yearly, and yearly blocks
never compute them — their displayed column sets (source lines 284-286,
320-322, 356-358) contain no change columns, so the claim fails for three
of the six granularities. -/
theorem pct_change_granularity_counterexample :
    "traded_qty_chg_%" ∈ weekly_disp_columns ∧
    "deliverable_qty_chg_%" ∈ weekly_disp_columns ∧
    "traded_qty_chg_%" ∉ quarterly_disp_columns ∧
    "deliverable_qty_chg_%" ∉ quarterly_disp_columns ∧
    "traded_qty_chg_%" ∉ half_disp_columns ∧
    "deliverable_qty_chg_%" ∉ half_disp_columns ∧
    "traded_qty_chg_%" ∉ year_disp_columns ∧
    "deliverable_qty_chg_%" ∉ year_disp_columns := by
  decide

/-- C2 (amended): for the daily, weekly, and monthly tables, each symbol's
rows carry percent changes computed against the immediately preceding row of
that symbol's sequence — null for the first — matching the spec-side
sequential definition; the weekly and monthly sequences are strictly
increasing in period, so the predecessor is the immediately preceding
period bucket; the change value is `100 * (current - previous) / previous`
whenever the previous value is nonzero; the quarterly, half-yearly, and
yearly outputs carry no percent-change columns at all. -/
theorem pct_change_granularity_spec (rows : List CleanedRow) (s : String) :
    (weeklyTable rows).filter (bySymbolC s) =
      specPctChangeSeq ((weeklyAggRows rows).filter (bySymbol s)) ∧
    (monthlyTable rows).filter (bySymbolC s) =
      specPctChangeSeq ((monthlyAggRows rows).filter (bySymbol s)) ∧
    (dailyTable rows).filter (bySymbolC s) =
      specPctChangeSeq ((dailyAggRows rows).filter (bySymbol s)) ∧
    ((weeklyAggRows rows).filter (bySymbol s)).Pairwise
      (fun a b => a.period < b.period) ∧
    ((monthlyAggRows rows).filter (bySymbol s)).Pairwise
      (fun a b => a.period < b.period) ∧
    (∀ p c : ℚ, p ≠ 0 → pctChangeVal p c = some (100 * (c - p) / p)) ∧
    (∀ c : ℚ, pctChangeVal 0 c = none) ∧
    "traded_qty_chg_%" ∉ quarterly_disp_columns ∧
    "traded_qty_chg_%" ∉ half_disp_columns ∧
    "traded_qty_chg_%" ∉ year_disp_columns := by
  refine ⟨withPctChange_filter (weeklyAggRows rows) s,
    withPctChange_filter (monthlyAggRows rows) s,
    withPctChange_filter (dailyAggRows rows) s,
    sortSymPeriod_filter_periods weekBucket rows s,
    sortSymPeriod_filter_periods monthBucket rows s, ?_, ?_,
    by decide, by decide, by decide⟩
  · intro p c hp
    unfold pctChangeVal
    rw [if_neg hp]
  · intro c
    unfold pctChangeVal
    rw [if_pos rfl]

/-- Witness for C2 (amended): for the spec's own weekly example (1000/500
then 2000/1000 a week later), the restriction to symbol AAA matches the
spec-side sequence, the concrete weekly table's second bucket carries a
100 percent change, and `pctChangeVal 1000 2000 = 100`. -/
theorem pct_change_granularity_witness :
    (weeklyTable [w1, w2]).filter (bySymbolC "AAA") =
      specPctChangeSeq ((weeklyAggRows [w1, w2]).filter (bySymbol "AAA")) ∧
    pctChangeVal 1000 2000 = some 100 ∧
    weeklyTable [w1, w2] = [wk1, wk2] := by
  refine ⟨(pct_change_granularity_spec [w1, w2] "AAA").1, ?_,
    by with_unfolding_all rfl⟩
  exact ((pct_change_granularity_spec [] "").2.2.2.2.2.1 1000 2000
    (by norm_num)).trans (by with_unfolding_all rfl)
